import Mathlib

/-!
Verification of the evaluation-agent pipeline (`eval_agent.py`).

The Python source is shallowly embedded below: pure helpers become Lean
functions over `List Char` / `String`, pandas tables become lists of
records, exceptions become `Except`, and `None`/`NaN` become `Option`.
-/

namespace EvalAgent

/-! ### Python string primitives used by the script -/

/-- Characters treated as whitespace by Python's `str.strip()` (ASCII range). -/
def isPyWs (c : Char) : Bool :=
  c = ' ' || c = '\t' || c = '\n' || c = '\r' || c = '\x0b' || c = '\x0c'

/-- Python `str.strip()` on the character list: drop whitespace from both ends. -/
def pyStripChars (l : List Char) : List Char :=
  ((l.dropWhile isPyWs).reverse.dropWhile isPyWs).reverse

/-- Python `str.strip()`. -/
def pyStrip (s : String) : String := ⟨pyStripChars s.data⟩

/-- Split a character list at every character satisfying `p`, keeping empty
pieces, exactly like Python `str.split(sep)` keeps empty fields. -/
def splitPred (p : Char → Bool) : List Char → List (List Char)
  | [] => [[]]
  | c :: t =>
    let r := splitPred p t
    if p c then [] :: r
    else
      match r with
      | [] => [[c]]
      | h :: rt => (c :: h) :: rt

/-- Python `reference.split(" ")`: split on every single space character. -/
def pySplitSpace (s : String) : List String :=
  (splitPred (fun c => c = ' ') s.data).map (fun l => ⟨l⟩)

/-- Does `n` occur as a leading block of `h` (prefix test on char lists)? -/
def leadsList : List Char → List Char → Bool
  | [], _ => true
  | _ :: _, [] => false
  | a :: t1, b :: t2 => a = b && leadsList t1 t2

/-- Substring search on character lists: Python's `needle in hay`. -/
def hasSubList (needle : List Char) : List Char → Bool
  | [] => needle.isEmpty
  | c :: t => leadsList needle (c :: t) || hasSubList needle t

/-- Python's `needle in hay` on strings. -/
def pyIn (needle hay : String) : Bool := hasSubList needle.data hay.data

/-! ### `_contains_words_metric_function` (eval_agent.py lines 42-53) -/

/-- Python `[word.strip() for word in reference.split(" ") if word.strip()]`. -/
def wordsToCheck (reference : String) : List String :=
  ((pySplitSpace reference).map pyStrip).filter (fun w => w ≠ "")

/-- The score computed by `_contains_words_metric_function`: 0 when either
text is empty, else 1 iff every (space-split, stripped, nonempty) reference
word is a substring of the response. -/
def containsWordsScore (response reference : String) : ℚ :=
  if response = "" ∨ reference = "" then 0
  else if (wordsToCheck reference).all (fun w => pyIn w response) then 1 else 0

/-- Tokens of `s` delimited by whitespace, as the spec's words
"whitespace-tokenized reference words" describe them: split on every
whitespace character and drop empty pieces.  This follows the spec, not the
code, and exists only to compare the two. -/
def specWhitespaceTokens (s : String) : List String :=
  ((splitPred isPyWs s.data).map (fun l => (⟨l⟩ : String))).filter (fun w => w ≠ "")

/-! ### Log entries (`get_logs_for_evaluation`, lines 69-197)

A normalized payload is a JSON object; the script only reads the keys below.
`Option` distinguishes an absent key from a present one (`some ""` is a
present key holding the empty string).  The `ground_truth` value is an
object whose `metric_type` / `reference` keys are the only ones read. -/

structure GTPayload where
  metric_type : Option String
  reference : Option String
deriving DecidableEq

structure Payload where
  log_type : Option String
  session_id : Option String
  request_id : Option String
  prompt : Option String
  response : Option String
  message : Option String
  final_answer : Option String
  ground_truth : Option GTPayload
deriving DecidableEq

/-- A payload with every key absent. -/
def basePayload : Payload := ⟨none, none, none, none, none, none, none, none⟩

structure LogEntry where
  timestamp : Nat
  payload : Payload
deriving DecidableEq

/-- Python truthiness of an optional string: present and nonempty. -/
def truthyOpt (o : Option String) : Bool :=
  match o with
  | some s => s ≠ ""
  | none => false

/-- Stable insertion of an entry into a timestamp-sorted list: the new entry
goes before the first entry whose timestamp is not smaller. -/
def insertByTs (x : LogEntry) : List LogEntry → List LogEntry
  | [] => [x]
  | y :: t => if y.timestamp < x.timestamp then y :: insertByTs x t else x :: y :: t

/-- Python `sorted(raw_logs, key=lambda x: x["entry"].timestamp)`: a stable
ascending sort by timestamp. -/
def sortByTs (l : List LogEntry) : List LogEntry := l.foldr insertByTs []

/-- Python `payload.get("log_type") in ["user_message", "final_answer"]` (line 109). -/
def isStructuredType (p : Payload) : Bool :=
  p.log_type = some "user_message" || p.log_type = some "final_answer"

/-- The guard of line 117: the entry is NOT a structured-type entry (the
`elif` chain), its `request_id` is truthy, and the payload carries BOTH a
`prompt` and a `response` key.  Such an entry joins the simple bucket `rid`. -/
def isSimpleFor (rid : String) (p : Payload) : Bool :=
  !isStructuredType p && p.request_id = some rid && rid ≠ ""
    && p.prompt.isSome && p.response.isSome

/-- The simple bucket for `rid`: entries of the stream that line 117 routes
to `simple_sessions_raw_logs[rid]`, in stream order. -/
def simpleBucket (rid : String) (entries : List LogEntry) : List LogEntry :=
  entries.filter (fun e => isSimpleFor rid e.payload)

/-- The scan state of lines 169-179: `prompt, response, reference = "", "", ""`
with `reference` holding the last `ground_truth` value seen (`none` models the
initial `""`). -/
structure SimpleState where
  prompt : String
  response : String
  reference : Option GTPayload
deriving DecidableEq

/-- One step of the scan of lines 172-179: each present key overwrites. -/
def stepSimple (acc : SimpleState) (p : Payload) : SimpleState :=
  { prompt := p.prompt.getD acc.prompt
    response := p.response.getD acc.response
    reference := match p.ground_truth with
      | some g => some g
      | none => acc.reference }

/-- The full scan over a (sorted) bucket's payloads. -/
def scanSimple (ps : List Payload) : SimpleState := ps.foldl stepSimple ⟨"", "", none⟩

/-- The timestamp-sorted payloads of the simple bucket `rid` (lines 170-171). -/
def sortedSimplePayloads (rid : String) (entries : List LogEntry) : List Payload :=
  (sortByTs (simpleBucket rid entries)).map (·.payload)

structure SimpleRow where
  eval_id : String
  session_id : String
  user_content : String
  agent_response : String
  reference : Option GTPayload
  metric_type : String
deriving DecidableEq

/-- Lines 168-192: scan the sorted bucket and emit a row iff both the final
prompt and the final response are nonempty; `metric_type` is `"simple"`. -/
def simpleRecord (rid : String) (entries : List LogEntry) : Option SimpleRow :=
  let s := scanSimple (sortedSimplePayloads rid entries)
  if s.prompt ≠ "" ∧ s.response ≠ "" then
    some ⟨rid, rid, s.prompt, s.response, s.reference, "simple"⟩
  else none

/-! ### Structured pairing (lines 109-166) -/

/-- Line 109-116 guard for bucket `sid`: structured log type and truthy
`session_id` equal to `sid`. -/
def isStructuredFor (sid : String) (p : Payload) : Bool :=
  isStructuredType p && p.session_id = some sid && sid ≠ ""

/-- The structured session bucket for `sid`, in stream order. -/
def structBucket (sid : String) (entries : List LogEntry) : List LogEntry :=
  entries.filter (fun e => isStructuredFor sid e.payload)

/-- Lines 129-133: payloads of the sorted bucket whose log type is
`"user_message"`. -/
def userMessages (bucket : List LogEntry) : List Payload :=
  ((sortByTs bucket).map (·.payload)).filter (fun p => p.log_type = some "user_message")

/-- Lines 134-138: payloads of the sorted bucket whose log type is
`"final_answer"`. -/
def finalAnswers (bucket : List LogEntry) : List Payload :=
  ((sortByTs bucket).map (·.payload)).filter (fun p => p.log_type = some "final_answer")

/-- The marker stripped from middleware messages (line 146). -/
def adkMarker : String := "ADK Web Log: Middleware triggered for prompt: "

/-- Lines 144-146: `payload.get("prompt") or payload.get("message", "").replace(...)`.
A truthy `prompt` wins, else the stripped `message` (missing keys default to `""`). -/
def userContentOf (p : Payload) : String :=
  match p.prompt with
  | some s => if s = "" then (p.message.getD "").replace adkMarker "" else s
  | none => (p.message.getD "").replace adkMarker ""

structure AgentRow where
  eval_id : String
  session_id : String
  user_content : String
  agent_response : String
  reference : Option GTPayload
  metric_type : String
  ground_truth : GTPayload
deriving DecidableEq

/-- Lines 140-166 for one index `i`: extract the texts from the `i`-th pair
and emit a row with `eval_id = f"{session_id}-{i}"` iff both the user content
and the final answer are truthy. -/
def mkStructRecord (sid : String) (i : Nat) (u f : Payload) : Option AgentRow :=
  let uc := userContentOf u
  let gtp := f.ground_truth.getD ⟨none, none⟩
  if uc ≠ "" ∧ truthyOpt f.final_answer = true then
    some { eval_id := sid ++ "-" ++ toString i
           session_id := sid
           user_content := uc
           agent_response := f.final_answer.getD ""
           reference := f.ground_truth
           metric_type := gtp.metric_type.getD "default_agent_metric"
           ground_truth := gtp }
  else none

/-- Lines 127-166: the rows produced for session `sid`: pair the `i`-th
user message with the `i`-th final answer for `i` below the minimum of the
two counts (the `range(min(...))` loop is the bounded positional zip). -/
def structuredRecords (sid : String) (entries : List LogEntry) : List AgentRow :=
  let bucket := structBucket sid entries
  (((userMessages bucket).zip (finalAnswers bucket)).enum).filterMap
    (fun q => mkStructRecord sid q.1 q.2.1 q.2.2)

/-! ### Merge-on-export (`main`, lines 804-847)

A long-form score row of the exported CSV.  `none` models a NaN cell
(pandas `fillna` fills only NaN cells). -/

structure SRow where
  eval_id : String
  metric_type : Option String
  metric_value : Option String
deriving DecidableEq

/-- Pandas `drop_duplicates(subset=["eval_id"])` with the default `keep="first"`:
keep a row iff its `eval_id` was not seen earlier. -/
def dedupAux (seen : List String) : List SRow → List SRow
  | [] => []
  | r :: t => if r.eval_id ∈ seen then dedupAux seen t else r :: dedupAux (r.eval_id :: seen) t

def dedupByEvalId (l : List SRow) : List SRow := dedupAux [] l

/-- Pandas `merged["col"] = merged["col_new"].fillna(merged["col_original"])`:
the new cell wins unless it is NaN. -/
def fillCol (newV oldV : Option String) : Option String :=
  match newV with
  | some v => some v
  | none => oldV

/-- One output row of the left join for prior row `o`: since the right table
has unique `eval_id`s, `o` matches at most the first right row with its id;
an unmatched `o` keeps its own cells (the `_new` columns are NaN). -/
def mergeRow (newTable : List SRow) (o : SRow) : SRow :=
  match newTable.find? (fun n => n.eval_id == o.eval_id) with
  | some n => ⟨o.eval_id, fillCol n.metric_type o.metric_type, fillCol n.metric_value o.metric_value⟩
  | none => o

/-- Lines 804-847: read the prior CSV (`[]` when the file is missing,
`priorExists = false`), dedup it on `eval_id`, dedup the new pass's renamed
table on `eval_id`, then: if the prior table is empty write the new table
as is, else left-join the prior table against the new one and fallback-fill
the two metric columns. -/
def mergeExport (priorExists : Bool) (orig newT : List SRow) : List SRow :=
  let orig1 := if priorExists then dedupByEvalId orig else []
  if orig1.isEmpty then newT
  else orig1.map (mergeRow (dedupByEvalId newT))

/-! ### Orchestration (`run_evaluation_and_generate_artifacts`, lines 354-575)

Rows of the evaluation DataFrame in the working (`--use-evalset-files`)
path: plain-string columns plus the carried ground-truth object. -/

structure ORow where
  session_id : String
  prompt : String
  response : String
  reference : String
  ground_truth : GTPayload
deriving DecidableEq

/-- Python `get_metric_type` + `fillna("simple")` (lines 402-406). -/
def rowMt (r : ORow) : String := r.ground_truth.metric_type.getD "simple"

/-- A cleaned row as handed to a scoring job: `replace("", np.nan)` turns
empty strings into NaN (`none`). -/
structure CRow where
  session_id : String
  prompt : Option String
  response : Option String
  reference : Option String
deriving DecidableEq

def nnS (s : String) : Option String := if s = "" then none else some s

def toCRow (r : ORow) : CRow := ⟨r.session_id, nnS r.prompt, nnS r.response, nnS r.reference⟩

/-- Lines 425-429: families whose jobs require a reference column. -/
def refRequired (mt : String) : Bool :=
  mt = "rouge" || mt = "bleu" || mt = "contains_words"

/-- Pandas `dropna(subset=essential_columns, how="any")` on the `""`-to-NaN
replaced frame: keep a row iff its response is nonempty and, for
reference-requiring families, its reference is nonempty too. -/
def keepRow (mt : String) (r : ORow) : Bool :=
  r.response ≠ "" && (!refRequired mt || r.reference ≠ "")

def keptRows (mt : String) (g : List ORow) : List ORow := g.filter (keepRow mt)

/-- The job input for partition `mt` (lines 421-438 / 466-476). -/
def jobInput (mt : String) (g : List ORow) : List CRow := (keptRows mt g).map toCRow

/-- The `for metric_type, group_df_original in agent_df.groupby(...)` loop
(lines 408-464): skip falsy metric types, skip `MANUAL`, skip partitions
left empty by the validity filter, run the job in a `try`, on success
collect `(metric_type, result)`, on exception log and continue. -/
def runAgentGroups {ρ : Type} (exec : String → List CRow → Except String ρ) :
    List (String × List ORow) → List (String × ρ)
  | [] => []
  | (mt, g) :: rest =>
    if mt = "" then runAgentGroups exec rest
    else if mt = "MANUAL" then runAgentGroups exec rest
    else if (jobInput mt g).isEmpty then runAgentGroups exec rest
    else
      match exec mt (jobInput mt g) with
      | .ok jr => (mt, jr) :: runAgentGroups exec rest
      | .error _ => runAgentGroups exec rest

/-- First-occurrence grouping keys. -/
def dedupStrings (seen : List String) : List String → List String
  | [] => []
  | k :: t => if k ∈ seen then dedupStrings seen t else k :: dedupStrings (k :: seen) t

/-- Pandas `agent_df.groupby("metric_type")`: one group per distinct metric type,
each holding the rows of that type (key order is irrelevant to every claim
below). -/
def groupByMt (rows : List ORow) : List (String × List ORow) :=
  (dedupStrings [] (rows.map rowMt)).map (fun k => (k, rows.filter (fun r => rowMt r = k)))

/-- The external collaborators of one orchestration pass.  `ingest` stands
for the fallible calls made before any job runs (platform/storage init and
input acquisition); `exec` is one scoring job; `upload` is the artifact
upload/download of lines 504-528. -/
structure Collab (ρ : Type) where
  ingest : Except String (List ORow)
  exec : String → List CRow → Except String ρ
  upload : Except String Unit

/-- The job results of one pass: the agent groups (lines 398-464) followed
by the simple branch (lines 466-494), whose job is cleaned with only the
response required and also isolated by its own `try`. -/
def passBody {ρ : Type} (c : Collab ρ) (rows : List ORow) : List (String × ρ) :=
  let agentRows := rows.filter (fun r => !(r.ground_truth.metric_type == some "simple"))
  let simpleRows := rows.filter (fun r => r.ground_truth.metric_type == some "simple")
  let agentRes := runAgentGroups c.exec (groupByMt agentRows)
  let simpleIn := jobInput "simple" simpleRows
  let simpleRes :=
    if simpleIn.isEmpty then []
    else
      match c.exec "simple" simpleIn with
      | .ok r => [("simple", r)]
      | .error _ => []
  agentRes ++ simpleRes

/-- Function `run_evaluation_and_generate_artifacts`: returns whether the RunState
timestamp file was written (first component) and the pass outcome.  An
uncaught collaborator failure propagates before reaching the
`if not all_time: save_current_timestamp()` of lines 572-573, so the flag
is `false` on every error path, and on success it is `!allTime`. -/
def runPass {ρ : Type} (c : Collab ρ) (allTime : Bool) :
    Bool × Except String (List (String × ρ)) :=
  match c.ingest with
  | .error e => (false, .error e)
  | .ok rows =>
    match (if (passBody c rows).isEmpty then Except.ok () else c.upload) with
    | .error e => (false, .error e)
    | .ok _ => (!allTime, .ok (passBody c rows))

/-! ### Evaluation-set files (`export_sessions_to_evalset` lines 261-294,
deserializer in `main` lines 767-792)

A turn holds the `parts` text lists; `expected_final_response` is present
only when written.  The ground-truth object of a simple export holds
exactly a `reference` and a `metric_type` key; both are modelled as the
optional keys the deserializer reads back. -/

structure SimpleTurn where
  user_content : List String
  final_response : List String
  expected_final_response : Option (List String)
deriving DecidableEq

structure EvalCase where
  eval_id : String
  conversation : List SimpleTurn
  gt_reference : Option String
  gt_metric_type : Option String
deriving DecidableEq

structure EvalSetDoc where
  eval_set_id : String
  eval_cases : List EvalCase
deriving DecidableEq

/-- A simple-exchange row as `export_sessions_to_evalset` iterates it. -/
structure SimpleRowS where
  request_id : String
  user_content : String
  agent_response : String
  reference : String
  metric_type : String
deriving DecidableEq

/-- Lines 261-294: one case named `case-{request_id}` with a single turn;
`expected_final_response` only when the reference is truthy; the
ground-truth object carries the reference and metric type. -/
def serializeSimple (r : SimpleRowS) : EvalSetDoc :=
  { eval_set_id := r.request_id
    eval_cases := [
      { eval_id := "case-" ++ r.request_id
        conversation := [
          { user_content := [r.user_content]
            final_response := [r.agent_response]
            expected_final_response :=
              if r.reference ≠ "" then some [r.reference] else none }]
        gt_reference := some r.reference
        gt_metric_type := some r.metric_type }] }

/-- A record as the deserializer of lines 777-792 rebuilds it. -/
structure DRecord where
  session_id : String
  response : String
  prompt : String
  reference : String
  gt_reference : Option String
  gt_metric_type : Option String
deriving DecidableEq

/-- Python `.get("parts", [{}])[0].get("text", "")`. -/
def partText (ps : List String) : String := ps.headD ""

/-- Lines 769-792 for one case: `conversation[-1]` raises on an empty
conversation (the index is evaluated before the `if conversation:` guard);
otherwise the case reference prefers `ground_truth["reference"]` and falls
back to the last turn's expected text, the response is the last turn's
final response and the prompt the first turn's user content. -/
def deserializeCase (c : EvalCase) : Except String DRecord :=
  match c.conversation with
  | [] => .error "IndexError"
  | f :: rest =>
    let lastTurn := ((f :: rest).getLast?).getD f
    let expText :=
      match lastTurn.expected_final_response with
      | some ps => partText ps
      | none => ""
    let caseRef := if (c.gt_reference.getD "") ≠ "" then c.gt_reference.getD "" else expText
    .ok { session_id := c.eval_id
          response := partText lastTurn.final_response
          prompt := partText f.user_content
          reference := caseRef
          gt_reference := c.gt_reference
          gt_metric_type := c.gt_metric_type }

/-- Walk a list of cases; a raised `IndexError` aborts the whole walk. -/
def deserializeCases : List EvalCase → Except String (List DRecord)
  | [] => .ok []
  | c :: t =>
    match deserializeCase c with
    | .error e => .error e
    | .ok d =>
      match deserializeCases t with
      | .error e => .error e
      | .ok ds => .ok (d :: ds)

/-- Walk `eval_cases`; a raised `IndexError` aborts the whole walk. -/
def deserializeSet (s : EvalSetDoc) : Except String (List DRecord) :=
  deserializeCases s.eval_cases

instance {ε α : Type} [DecidableEq ε] [DecidableEq α] : DecidableEq (Except ε α) := fun x y =>
  match x, y with
  | .ok a, .ok b =>
    if h : a = b then isTrue (by rw [h])
    else isFalse (by intro hc; injection hc; contradiction)
  | .error a, .error b =>
    if h : a = b then isTrue (by rw [h])
    else isFalse (by intro hc; injection hc; contradiction)
  | .ok _, .error _ => isFalse (by intro hc; exact Except.noConfusion hc)
  | .error _, .ok _ => isFalse (by intro hc; exact Except.noConfusion hc)

/-- Rebuild a serializable row from a deserialized record (the metric type
is taken from the carried ground truth, defaulting like the pipeline does). -/
def rowOfD (d : DRecord) : SimpleRowS :=
  ⟨d.session_id, d.prompt, d.response, d.reference, d.gt_metric_type.getD "simple"⟩

/-! ### Concrete inputs used by witnesses and counterexamples -/

def c1e1 : LogEntry :=
  ⟨0, { basePayload with
        request_id := some "r"
        prompt := some "p1"
        response := some "r1"
        ground_truth := some ⟨none, some "g1"⟩ }⟩

/-- A later event carrying only a `response` key. -/
def c1e2 : LogEntry :=
  ⟨1, { basePayload with request_id := some "r", response := some "r2" }⟩

/-- A later event carrying both keys (it does join the bucket). -/
def c1e3 : LogEntry :=
  ⟨1, { basePayload with
        request_id := some "r"
        prompt := some "p2"
        response := some "r2" }⟩

def c1wRow : SimpleRow := ⟨"r", "r", "p2", "r2", some ⟨none, some "g1"⟩, "simple"⟩

def c4u0 : LogEntry :=
  ⟨0, { basePayload with
        log_type := some "user_message"
        session_id := some "s"
        prompt := some "q0" }⟩
def c4f0 : LogEntry :=
  ⟨1, { basePayload with
        log_type := some "final_answer"
        session_id := some "s"
        final_answer := some "a0" }⟩
def c4u1 : LogEntry :=
  ⟨2, { basePayload with
        log_type := some "user_message"
        session_id := some "s"
        prompt := some "q1" }⟩
def c4f1 : LogEntry :=
  ⟨3, { basePayload with
        log_type := some "final_answer"
        session_id := some "s"
        final_answer := some "a1" }⟩
def c4u2 : LogEntry :=
  ⟨4, { basePayload with
        log_type := some "user_message"
        session_id := some "s"
        prompt := some "q2" }⟩

/-- Three user messages and two final answers, in scrambled stream order. -/
def c4Entries : List LogEntry := [c4u2, c4f0, c4u0, c4f1, c4u1]

def c2wOrig : List SRow := [⟨"a", some "old_t", some "0.1"⟩, ⟨"b", some "t2", some "0.2"⟩]
def c2wNew : List SRow := [⟨"a", some "new_t", some "0.9"⟩]

/-- A consolidated table with two metric rows for one record identity. -/
def c2cOrig : List SRow := [⟨"a", some "bleu", some "0.5"⟩, ⟨"a", some "rouge", some "0.7"⟩]
def c2cNew : List SRow := [⟨"b", some "bleu", some "0.9"⟩]

/-- A consolidated table with pairwise distinct identities. -/
def c3wT : List SRow := [⟨"a", some "bleu", some "0.5"⟩, ⟨"b", some "rouge", some "0.7"⟩]

def c10Orig : List SRow := [⟨"a", some "t", some "1"⟩]
def c10New : List SRow := [⟨"b", some "t", some "2"⟩]

/-- A row with a nonempty response and an empty reference. -/
def c6Row : ORow := ⟨"s1", "p", "resp", "", ⟨some "bleu", none⟩⟩

def c6Exec : String → List CRow → Except String Nat := fun _ _ => .ok 0

def c8Exec : String → List CRow → Except String Nat :=
  fun mt _ => if mt = "bad" then .error "boom" else .ok 7

def c8Row : ORow := ⟨"s2", "p", "resp", "ref", ⟨some "rouge", none⟩⟩

def c9Fail : Collab Nat := ⟨.error "down", fun _ _ => .ok 0, .ok ()⟩

/-- A file whose single case has a two-turn conversation. -/
def c7TwoTurn : EvalSetDoc :=
  ⟨"s", [⟨"e", [⟨["u0"], ["r0"], none⟩, ⟨["u1"], ["r1"], none⟩], some "", some "simple"⟩]⟩

/-- What the deserializer rebuilds from `c7TwoTurn`. -/
def c7DRound : DRecord := ⟨"e", "r1", "u0", "", some "", some "simple"⟩

/-! ## Theorems -/

/-- C5 counterexample: the reference `"cat\tsat"` tokenizes under the
claim's "whitespace-delimited" reading into `["cat", "sat"]`, both
substrings of the response, so the claim demands score 1.0 — but the code
splits on single spaces only and returns 0.0. -/
theorem contains_words_tab_counterexample :
    containsWordsScore "the cat sat" "cat\tsat" = 0
    ∧ specWhitespaceTokens "cat\tsat" = ["cat", "sat"]
    ∧ ((specWhitespaceTokens "cat\tsat").all (fun w => pyIn w "the cat sat")) = true
    ∧ "the cat sat" ≠ "" ∧ "cat\tsat" ≠ "" := by
  decide

/-- C5 (amended): `_contains_words_metric_function` returns 1.0 iff the
response and reference are nonempty and every token obtained by splitting
the reference on single spaces (stripped, empties dropped) is a substring
of the response; otherwise it returns 0.0, in particular whenever either
text is empty. -/
theorem contains_words_characterization (response reference : String) :
    (containsWordsScore response reference = 1 ↔
      response ≠ "" ∧ reference ≠ "" ∧ ∀ w ∈ wordsToCheck reference, pyIn w response = true)
    ∧ (containsWordsScore response reference = 0 ∨ containsWordsScore response reference = 1)
    ∧ ((response = "" ∨ reference = "") → containsWordsScore response reference = 0) := by
  unfold containsWordsScore
  by_cases h1 : response = ""
  · simp [h1]
  · by_cases h2 : reference = ""
    · simp [h1, h2]
    · have hcond : ¬(response = "" ∨ reference = "") := by tauto
      by_cases h3 : (wordsToCheck reference).all (fun w => pyIn w response) = true
      · rw [if_neg hcond, if_pos h3]
        exact ⟨iff_of_true rfl ⟨h1, h2, fun w hw => by simpa using List.all_eq_true.mp h3 w hw⟩,
          Or.inr rfl, fun hc => absurd hc hcond⟩
      · rw [if_neg hcond, if_neg h3]
        have hnall : ¬ ∀ w ∈ wordsToCheck reference, pyIn w response = true := by
          intro hall
          exact h3 (List.all_eq_true.mpr (fun w hw => hall w hw))
        exact ⟨iff_of_false (by norm_num) (by tauto), Or.inl rfl, fun hc => absurd hc hcond⟩

/-- C5 witness: the spec's three concrete examples, via the
characterization. -/
theorem contains_words_examples :
    containsWordsScore "the cat sat" "cat sat" = 1
    ∧ containsWordsScore "the cat sat" "cat dog" = 0
    ∧ containsWordsScore "the cat sat" "" = 0 := by
  refine ⟨?_, ?_, ?_⟩
  · exact (contains_words_characterization "the cat sat" "cat sat").1.mpr
      ⟨by decide, by decide, by decide⟩
  · rcases (contains_words_characterization "the cat sat" "cat dog").2.1 with h | h
    · exact h
    · exact absurd ((contains_words_characterization "the cat sat" "cat dog").1.mp h)
        (by decide)
  · exact (contains_words_characterization "the cat sat" "").2.2 (Or.inr rfl)

/-- Helper: the scan's final prompt is the last `prompt` value present in
the list, defaulting to the accumulator's. -/
theorem scan_go_prompt (ps : List Payload) (acc : SimpleState) :
    (ps.foldl stepSimple acc).prompt = (ps.filterMap (·.prompt)).getLastD acc.prompt := by
  induction ps generalizing acc with
  | nil => rfl
  | cons p t ih =>
    cases hp : p.prompt with
    | none =>
      rw [List.foldl_cons, ih]
      have hs : (stepSimple acc p).prompt = acc.prompt := by simp [stepSimple, hp]
      rw [hs, List.filterMap_cons, hp]
    | some v =>
      rw [List.foldl_cons, ih]
      have hs : (stepSimple acc p).prompt = v := by simp [stepSimple, hp]
      rw [hs, List.filterMap_cons, hp, List.getLastD_cons]

/-- Helper: same for the response column. -/
theorem scan_go_response (ps : List Payload) (acc : SimpleState) :
    (ps.foldl stepSimple acc).response = (ps.filterMap (·.response)).getLastD acc.response := by
  induction ps generalizing acc with
  | nil => rfl
  | cons p t ih =>
    cases hp : p.response with
    | none =>
      rw [List.foldl_cons, ih]
      have hs : (stepSimple acc p).response = acc.response := by simp [stepSimple, hp]
      rw [hs, List.filterMap_cons, hp]
    | some v =>
      rw [List.foldl_cons, ih]
      have hs : (stepSimple acc p).response = v := by simp [stepSimple, hp]
      rw [hs, List.filterMap_cons, hp, List.getLastD_cons]

/-- Helper: same for the reference (last `ground_truth` value seen). -/
theorem scan_go_ref (ps : List Payload) (acc : SimpleState) :
    (ps.foldl stepSimple acc).reference
      = ((ps.filterMap (·.ground_truth)).map some).getLastD acc.reference := by
  induction ps generalizing acc with
  | nil => rfl
  | cons p t ih =>
    cases hp : p.ground_truth with
    | none =>
      rw [List.foldl_cons, ih]
      have hs : (stepSimple acc p).reference = acc.reference := by simp [stepSimple, hp]
      rw [hs, List.filterMap_cons, hp]
    | some g =>
      rw [List.foldl_cons, ih]
      have hs : (stepSimple acc p).reference = some g := by simp [stepSimple, hp]
      rw [hs, List.filterMap_cons, hp, List.map_cons, List.getLastD_cons]

/-- C1 (amended): within a simple bucket, after sorting by timestamp and
scanning in order, each of prompt / response / reference is the last value
seen for that key; a record is emitted iff the final prompt and response
are both nonempty, its fields are the scan results and its metric family
is `"simple"`.  However an event whose payload lacks the `prompt` key — in
particular one carrying only a `response` — is never bucketed at all. -/
theorem simple_pairing_lww (rid : String) (entries : List LogEntry) :
    ((scanSimple (sortedSimplePayloads rid entries)).prompt
        = ((sortedSimplePayloads rid entries).filterMap (·.prompt)).getLastD ""
      ∧ (scanSimple (sortedSimplePayloads rid entries)).response
        = ((sortedSimplePayloads rid entries).filterMap (·.response)).getLastD ""
      ∧ (scanSimple (sortedSimplePayloads rid entries)).reference
        = (((sortedSimplePayloads rid entries).filterMap (·.ground_truth)).map some).getLastD none)
    ∧ ((simpleRecord rid entries).isSome = true ↔
        (scanSimple (sortedSimplePayloads rid entries)).prompt ≠ ""
        ∧ (scanSimple (sortedSimplePayloads rid entries)).response ≠ "")
    ∧ (∀ row, simpleRecord rid entries = some row →
        row.metric_type = "simple"
        ∧ row.user_content = (scanSimple (sortedSimplePayloads rid entries)).prompt
        ∧ row.agent_response = (scanSimple (sortedSimplePayloads rid entries)).response
        ∧ row.reference = (scanSimple (sortedSimplePayloads rid entries)).reference)
    ∧ (∀ p : Payload, p.prompt = none → isSimpleFor rid p = false) := by
  refine ⟨⟨scan_go_prompt _ _, scan_go_response _ _, scan_go_ref _ _⟩, ?_, ?_, ?_⟩
  · simp only [simpleRecord]
    split
    · next h => simp [h]
    · next h => simp [h]
  · intro row hrow
    simp only [simpleRecord] at hrow
    split at hrow
    · injection hrow with h
      subst h
      exact ⟨rfl, rfl, rfl, rfl⟩
    · exact Option.noConfusion hrow
  · intro p hp
    simp [isSimpleFor, hp]

/-- C1 counterexample: two events for request id `"r"`, the later carrying
only a `response` key; the later event never joins the bucket, so the
emitted record's response is the earlier `"r1"`, not the claimed `"r2"`. -/
theorem simple_pairing_response_only_dropped :
    simpleRecord "r" [c1e1, c1e2]
      = some ⟨"r", "r", "p1", "r1", some ⟨none, some "g1"⟩, "simple"⟩
    ∧ c1e2.payload.response = some "r2"
    ∧ c1e1.timestamp < c1e2.timestamp
    ∧ ("r1" : String) ≠ "r2" := by
  decide

/-- Helper: positional access commutes with `zip`. -/
theorem get_zip_of_get {α β : Type} (l1 : List α) (l2 : List β) (i : Nat) (a : α) (b : β)
    (h1 : l1.get? i = some a) (h2 : l2.get? i = some b) :
    (l1.zip l2).get? i = some (a, b) := by
  induction l1 generalizing l2 i with
  | nil => simp at h1
  | cons x t ih =>
    cases l2 with
    | nil => simp at h2
    | cons y s =>
      cases i with
      | zero =>
        simp only [List.get?_cons_zero, Option.some.injEq] at h1 h2
        simp [List.zip_cons_cons, h1, h2]
      | succ n =>
        simp only [List.get?_cons_succ] at h1 h2
        simpa [List.zip_cons_cons] using ih s n h1 h2

/-- Helper: an emitted structured record's id is `"{sid}-{i}"`. -/
theorem mkStructRecord_eval_id (sid : String) (i : Nat) (u f : Payload) (r : AgentRow)
    (h : mkStructRecord sid i u f = some r) : r.eval_id = sid ++ "-" ++ toString i := by
  simp only [mkStructRecord] at h
  split at h
  · injection h with h2
    subst h2
    rfl
  · exact Option.noConfusion h

/-- Helper: when every indexed pair emits, the emitted ids follow the
indices. -/
theorem filterMap_all_some_ids (sid : String) (L : List (Nat × Payload × Payload))
    (h : ∀ q ∈ L, (mkStructRecord sid q.1 q.2.1 q.2.2).isSome = true) :
    (L.filterMap (fun q => mkStructRecord sid q.1 q.2.1 q.2.2)).map (·.eval_id)
      = L.map (fun q => sid ++ "-" ++ toString q.1) := by
  induction L with
  | nil => rfl
  | cons a t ih =>
    have ha := h a (List.mem_cons_self a t)
    obtain ⟨r, hr⟩ := Option.isSome_iff_exists.mp ha
    simp only [List.filterMap_cons, hr, List.map_cons]
    rw [mkStructRecord_eval_id sid a.1 a.2.1 a.2.2 r hr,
      ih (fun q hq => h q (List.mem_cons_of_mem a hq))]

/-- C4: structured pairing is a bounded positional zip: at most
`min(#user_messages, #final_answers)` records are produced; the `i`-th zip
pair is exactly the `i`-th user message with the `i`-th final answer; and
when every pair's texts are nonempty, the emitted record ids are
`"{sid}-{i}"` for `i` ranging over exactly `[0, min)` — any surplus on
either side yields nothing. -/
theorem structured_pairing_bounded_zip (sid : String) (entries : List LogEntry) :
    (structuredRecords sid entries).length
      ≤ Nat.min (userMessages (structBucket sid entries)).length
          (finalAnswers (structBucket sid entries)).length
    ∧ (∀ i u f, (userMessages (structBucket sid entries)).get? i = some u →
        (finalAnswers (structBucket sid entries)).get? i = some f →
        ((userMessages (structBucket sid entries)).zip
          (finalAnswers (structBucket sid entries))).get? i = some (u, f))
    ∧ ((∀ q ∈ ((userMessages (structBucket sid entries)).zip
          (finalAnswers (structBucket sid entries))).enum,
          (mkStructRecord sid q.1 q.2.1 q.2.2).isSome = true) →
        (structuredRecords sid entries).map (·.eval_id)
          = (List.range (Nat.min (userMessages (structBucket sid entries)).length
              (finalAnswers (structBucket sid entries)).length)).map
                (fun i => sid ++ "-" ++ toString i)) := by
  refine ⟨?_, fun i u f h1 h2 => get_zip_of_get _ _ i u f h1 h2, fun h => ?_⟩
  · simp only [structuredRecords]
    calc ((((userMessages (structBucket sid entries)).zip
            (finalAnswers (structBucket sid entries))).enum).filterMap
              (fun q => mkStructRecord sid q.1 q.2.1 q.2.2)).length
        ≤ (((userMessages (structBucket sid entries)).zip
            (finalAnswers (structBucket sid entries))).enum).length :=
          List.length_filterMap_le _ _
      _ = ((userMessages (structBucket sid entries)).zip
            (finalAnswers (structBucket sid entries))).length := List.enum_length
      _ = Nat.min (userMessages (structBucket sid entries)).length
            (finalAnswers (structBucket sid entries)).length := by
          rw [List.length_zip]
  · simp only [structuredRecords]
    rw [filterMap_all_some_ids sid _ h]
    have hcomp : (((userMessages (structBucket sid entries)).zip
        (finalAnswers (structBucket sid entries))).enum).map
          (fun q => sid ++ "-" ++ toString q.1)
        = ((((userMessages (structBucket sid entries)).zip
            (finalAnswers (structBucket sid entries))).enum).map Prod.fst).map
              (fun i => sid ++ "-" ++ toString i) := by
      rw [List.map_map]
      rfl
    rw [hcomp, List.enum_map_fst, List.length_zip]

/-- C4 witness: three user messages and two final answers in one session
(scrambled stream order) produce exactly the two records `s-0`, `s-1`. -/
theorem structured_pairing_witness :
    (structuredRecords "s" c4Entries).map (·.eval_id)
      = (List.range (Nat.min (userMessages (structBucket "s" c4Entries)).length
          (finalAnswers (structBucket "s" c4Entries)).length)).map
            (fun i => "s" ++ "-" ++ toString i)
    ∧ (structuredRecords "s" c4Entries).map (·.eval_id) = ["s-0", "s-1"]
    ∧ (userMessages (structBucket "s" c4Entries)).length = 3
    ∧ (finalAnswers (structBucket "s" c4Entries)).length = 2 :=
  ⟨(structured_pairing_bounded_zip "s" c4Entries).2.2 (by decide),
   by decide, by decide, by decide⟩

/-- Helper: dedup only keeps rows of the input. -/
theorem dedupAux_sub (seen : List String) (l : List SRow) :
    ∀ r ∈ dedupAux seen l, r ∈ l := by
  induction l generalizing seen with
  | nil => intro r h; exact absurd h (List.not_mem_nil r)
  | cons a t ih =>
    intro r h
    simp only [dedupAux] at h
    split at h
    · exact List.mem_cons_of_mem a (ih seen r h)
    · rcases List.mem_cons.mp h with h1 | h2
      · exact h1 ▸ List.mem_cons_self a t
      · exact List.mem_cons_of_mem a (ih _ r h2)

/-- Helper: every id of the input survives dedup (or was already seen). -/
theorem dedupAux_id_mem (l : List SRow) (o : SRow) :
    ∀ seen : List String, o ∈ l →
      o.eval_id ∈ seen ∨ ∃ r ∈ dedupAux seen l, r.eval_id = o.eval_id := by
  induction l with
  | nil => intro seen ho; cases ho
  | cons a t ih =>
    intro seen ho
    by_cases h : a.eval_id ∈ seen
    · simp only [dedupAux, if_pos h]
      rcases List.mem_cons.mp ho with he | hmem
      · exact Or.inl (by rw [he]; exact h)
      · exact ih seen hmem
    · simp only [dedupAux, if_neg h]
      rcases List.mem_cons.mp ho with he | hmem
      · exact Or.inr ⟨a, List.mem_cons_self _ _, by rw [he]⟩
      · rcases ih (a.eval_id :: seen) hmem with hs | ⟨r, hr1, hr2⟩
        · rcases List.mem_cons.mp hs with he | hs2
          · exact Or.inr ⟨a, List.mem_cons_self _ _, he.symm⟩
          · exact Or.inl hs2
        · exact Or.inr ⟨r, List.mem_cons_of_mem a hr1, hr2⟩

/-- Helper: the left join keeps each prior row's identity. -/
theorem mergeRow_id (nt : List SRow) (o : SRow) : (mergeRow nt o).eval_id = o.eval_id := by
  unfold mergeRow
  split <;> rfl

/-- Helper: dedup of a nonempty table is nonempty. -/
theorem dedup_ne_nil (l : List SRow) (h : l ≠ []) : dedupByEvalId l ≠ [] := by
  cases l with
  | nil => exact absurd rfl h
  | cons a t => simp [dedupByEvalId, dedupAux]

/-- Helper: the merged table when the prior table is nonempty. -/
theorem mergeExport_eq_map (orig newT : List SRow) (h : dedupByEvalId orig ≠ []) :
    mergeExport true orig newT = (dedupByEvalId orig).map (mergeRow (dedupByEvalId newT)) := by
  simp only [mergeExport, if_true]
  rw [if_neg]
  simp [List.isEmpty_iff, h]

/-- C2 (amended): after the prior table is deduplicated to its first row
per `eval_id` (the code's `drop_duplicates(subset=["eval_id"])`), the
merge is a left join with column-wise fallback-fill: no prior identity is
dropped; a deduplicated prior row whose id matches a (deduplicated) new
row yields the new `metric_type`/`metric_value` with per-column fallback to
the prior values; a prior row untouched by the new pass survives
unchanged.  (Duplicate prior rows beyond the first per id are dropped —
see the counterexample.) -/
theorem merge_fallback_fill (orig newT : List SRow) :
    (∀ o ∈ orig, ∃ r ∈ mergeExport true orig newT, r.eval_id = o.eval_id)
    ∧ (∀ o n, o ∈ dedupByEvalId orig →
        (dedupByEvalId newT).find? (fun x => x.eval_id == o.eval_id) = some n →
        (⟨o.eval_id, fillCol n.metric_type o.metric_type,
          fillCol n.metric_value o.metric_value⟩ : SRow) ∈ mergeExport true orig newT)
    ∧ (∀ o, o ∈ dedupByEvalId orig →
        (dedupByEvalId newT).find? (fun x => x.eval_id == o.eval_id) = none →
        o ∈ mergeExport true orig newT) := by
  refine ⟨?_, ?_, ?_⟩
  · intro o ho
    rcases dedupAux_id_mem orig o [] ho with hs | ⟨r, hr1, hr2⟩
    · exact absurd hs (List.not_mem_nil _)
    · rw [mergeExport_eq_map orig newT (List.ne_nil_of_mem hr1)]
      exact ⟨mergeRow (dedupByEvalId newT) r, List.mem_map_of_mem _ hr1,
        (mergeRow_id _ r).trans hr2⟩
  · intro o n ho hfind
    rw [mergeExport_eq_map orig newT (List.ne_nil_of_mem ho)]
    have : mergeRow (dedupByEvalId newT) o
        = ⟨o.eval_id, fillCol n.metric_type o.metric_type,
            fillCol n.metric_value o.metric_value⟩ := by
      unfold mergeRow
      rw [hfind]
    exact this ▸ List.mem_map_of_mem _ ho
  · intro o ho hfind
    rw [mergeExport_eq_map orig newT (List.ne_nil_of_mem ho)]
    have : mergeRow (dedupByEvalId newT) o = o := by
      unfold mergeRow
      rw [hfind]
    exact this ▸ List.mem_map_of_mem _ ho

/-- C2 counterexample: a prior table with two metric rows for identity
`"a"`, and a new pass that never touches `"a"`; the prior `rouge` row is
dropped from the merged output. -/
theorem merge_prior_duplicate_row_dropped :
    mergeExport true c2cOrig c2cNew = [⟨"a", some "bleu", some "0.5"⟩]
    ∧ (⟨"a", some "rouge", some "0.7"⟩ : SRow) ∈ c2cOrig
    ∧ "a" ∉ c2cNew.map (·.eval_id)
    ∧ (⟨"a", some "rouge", some "0.7"⟩ : SRow) ∉ mergeExport true c2cOrig c2cNew := by
  decide

/-- C2 witness: identity `"a"` is in both tables so the new values win;
identity `"b"` is only prior so its row survives unchanged. -/
theorem merge_fallback_fill_witness :
    (⟨"a", some "new_t", some "0.9"⟩ : SRow) ∈ mergeExport true c2wOrig c2wNew
    ∧ (⟨"b", some "t2", some "0.2"⟩ : SRow) ∈ mergeExport true c2wOrig c2wNew :=
  ⟨(merge_fallback_fill c2wOrig c2wNew).2.1 ⟨"a", some "old_t", some "0.1"⟩
      ⟨"a", some "new_t", some "0.9"⟩ (by decide) (by decide),
   (merge_fallback_fill c2wOrig c2wNew).2.2 ⟨"b", some "t2", some "0.2"⟩
      (by decide) (by decide)⟩

/-- Helper: dedup is the identity on tables with pairwise distinct ids. -/
theorem dedupAux_eq_self (t : List SRow) :
    ∀ seen : List String, (t.map (·.eval_id)).Nodup →
      (∀ r ∈ t, r.eval_id ∉ seen) → dedupAux seen t = t := by
  induction t with
  | nil => intro seen _ _; rfl
  | cons a s ih =>
    intro seen hnd hseen
    simp only [List.map_cons, List.nodup_cons] at hnd
    rw [dedupAux, if_neg (hseen a (List.mem_cons_self a s)),
      ih (a.eval_id :: seen) hnd.2]
    intro r hr
    rw [List.mem_cons]
    push_neg
    refine ⟨?_, hseen r (List.mem_cons_of_mem a hr)⟩
    intro he
    exact hnd.1 (he ▸ List.mem_map_of_mem (·.eval_id) hr)

/-- Helper: on a table with distinct ids, `find?` by a member's id finds
that member. -/
theorem find_self_of_nodup (t : List SRow) (h : (t.map (·.eval_id)).Nodup) (o : SRow)
    (ho : o ∈ t) : t.find? (fun x => x.eval_id == o.eval_id) = some o := by
  induction t with
  | nil => cases ho
  | cons a s ih =>
    simp only [List.map_cons, List.nodup_cons] at h
    rcases List.mem_cons.mp ho with rfl | hmem
    · rw [List.find?_cons_of_pos _ (by simp)]
    · have hne : a.eval_id ≠ o.eval_id := by
        intro he
        exact h.1 (he ▸ List.mem_map_of_mem (·.eval_id) hmem)
      rw [List.find?_cons_of_neg _ (by simp [hne])]
      exact ih h.2 hmem

/-- Helper: filling a column with itself changes nothing. -/
theorem fillCol_self (x : Option String) : fillCol x x = x := by
  cases x <;> rfl

/-- C3 (amended): the merge is idempotent on tables whose `eval_id`s are
pairwise distinct: merging such a consolidated table into itself returns
the table unchanged (no duplicate rows, no value changes).  Tables with
several metric rows per identity are NOT preserved — see the
counterexample. -/
theorem merge_idempotent_on_unique_ids (t : List SRow)
    (h : (t.map (·.eval_id)).Nodup) : mergeExport true t t = t := by
  cases ht : t with
  | nil => rfl
  | cons a s =>
    rw [← ht]
    have hd : dedupByEvalId t = t :=
      dedupAux_eq_self t [] h (fun r _ => List.not_mem_nil _)
    rw [mergeExport_eq_map t t (by rw [hd, ht]; exact List.cons_ne_nil a s), hd]
    have hrow : ∀ o ∈ t, mergeRow t o = o := by
      intro o ho
      unfold mergeRow
      rw [find_self_of_nodup t h o ho]
      show (⟨o.eval_id, fillCol o.metric_type o.metric_type,
        fillCol o.metric_value o.metric_value⟩ : SRow) = o
      rw [fillCol_self, fillCol_self]
    calc t.map (mergeRow t) = t.map id := List.map_congr_left hrow
      _ = t := List.map_id t

/-- C3 counterexample: merging a consolidated table holding two metric
rows for record `"a"` into itself drops the `rouge` row: the self-merge is
not the identity, so a metric value is lost. -/
theorem merge_self_drops_second_metric_row :
    mergeExport true c2cOrig c2cOrig = [⟨"a", some "bleu", some "0.5"⟩]
    ∧ (⟨"a", some "rouge", some "0.7"⟩ : SRow) ∈ c2cOrig
    ∧ (⟨"a", some "rouge", some "0.7"⟩ : SRow) ∉ mergeExport true c2cOrig c2cOrig
    ∧ mergeExport true c2cOrig c2cOrig ≠ c2cOrig := by
  decide

/-- C3 witness: a two-row table with distinct ids self-merges to itself. -/
theorem merge_idempotent_witness : mergeExport true c3wT c3wT = c3wT :=
  merge_idempotent_on_unique_ids c3wT (by decide)

/-- C10: when a nonempty prior table exists, the left join keeps only
prior identities — a new pass's row whose id is absent from the prior
table is missing from the written CSV; new identities are persisted
exactly when the prior file is missing (`priorExists = false`) or empty. -/
theorem merge_left_join_drops_new_ids (orig newT : List SRow) :
    (orig ≠ [] → ∀ r ∈ mergeExport true orig newT, r.eval_id ∈ orig.map (·.eval_id))
    ∧ (orig ≠ [] → ∀ n ∈ newT, n.eval_id ∉ orig.map (·.eval_id) →
        n.eval_id ∉ (mergeExport true orig newT).map (·.eval_id))
    ∧ mergeExport false orig newT = newT
    ∧ mergeExport true [] newT = newT := by
  have hmain : orig ≠ [] → ∀ r ∈ mergeExport true orig newT,
      r.eval_id ∈ orig.map (·.eval_id) := by
    intro hne r hr
    rw [mergeExport_eq_map orig newT (dedup_ne_nil orig hne)] at hr
    rcases List.mem_map.mp hr with ⟨o, ho, rfl⟩
    rw [mergeRow_id]
    exact List.mem_map_of_mem _ (dedupAux_sub [] orig o ho)
  refine ⟨hmain, ?_, rfl, rfl⟩
  intro hne n _ hnotin hmem
  rcases List.mem_map.mp hmem with ⟨r, hr, hid⟩
  exact hnotin (hid ▸ hmain hne r hr)

/-- C10 witness: with a nonempty prior table, the new-only identity `"b"`
is absent from the merged output. -/
theorem merge_left_join_witness :
    "b" ∉ (mergeExport true c10Orig c10New).map (·.eval_id) :=
  (merge_left_join_drops_new_ids c10Orig c10New).2.1 (by decide)
    ⟨"b", some "t", some "2"⟩ (by decide) (by decide)

/-- C6: partition validity: reference-requiring families (`bleu`, `rouge`,
`contains_words`) exclude every row lacking a nonempty reference from the
job's input; every other family (`simple` included) keeps a row iff its
response is nonempty, so an empty reference is retained there; a partition
left empty by the filter creates no job. -/
theorem partition_validity_filter {ρ : Type} (exec : String → List CRow → Except String ρ)
    (mt : String) (g : List ORow) (r : ORow) (rest : List (String × List ORow)) :
    (refRequired mt = true → r.reference = "" → r ∉ keptRows mt g)
    ∧ (refRequired mt = false → (r ∈ keptRows mt g ↔ r ∈ g ∧ r.response ≠ ""))
    ∧ (refRequired "bleu" = true ∧ refRequired "rouge" = true
        ∧ refRequired "contains_words" = true ∧ refRequired "simple" = false)
    ∧ (keptRows mt g = [] → runAgentGroups exec ((mt, g) :: rest) = runAgentGroups exec rest) := by
  refine ⟨?_, ?_, by decide, ?_⟩
  · intro h1 h2 hmem
    have hk := (List.mem_filter.mp hmem).2
    simp [keepRow, h1, h2] at hk
  · intro h1
    rw [keptRows, List.mem_filter]
    simp [keepRow, h1]
  · intro h
    have hj : jobInput mt g = [] := by rw [jobInput, h]; rfl
    simp only [runAgentGroups, hj]
    split_ifs with h1 h2 h3
    · rfl
    · rfl
    · rfl
    · simp at h3

/-- C6 witness: a row with nonempty response and empty reference is
excluded from a `bleu` job's input, retained in a `simple` one, and the
emptied `bleu` partition yields no job. -/
theorem partition_validity_witness :
    c6Row ∉ keptRows "bleu" [c6Row]
    ∧ c6Row ∈ keptRows "simple" [c6Row]
    ∧ runAgentGroups c6Exec [("bleu", [c6Row])] = runAgentGroups c6Exec [] :=
  ⟨(partition_validity_filter c6Exec "bleu" [c6Row] c6Row []).1 (by decide) (by decide),
   ((partition_validity_filter c6Exec "simple" [c6Row] c6Row []).2.1 (by decide)).mpr
     ⟨by decide, by decide⟩,
   (partition_validity_filter c6Exec "bleu" [c6Row] c6Row []).2.2.2 (by decide)⟩

/-- Helper: the partition loop distributes over list append. -/
theorem runAgentGroups_append {ρ : Type} (exec : String → List CRow → Except String ρ)
    (A B : List (String × List ORow)) :
    runAgentGroups exec (A ++ B) = runAgentGroups exec A ++ runAgentGroups exec B := by
  induction A with
  | nil => rfl
  | cons a t ih =>
    obtain ⟨mt, g⟩ := a
    simp only [List.cons_append, runAgentGroups]
    split_ifs
    · exact ih
    · exact ih
    · exact ih
    · cases hx : exec mt (jobInput mt g) with
      | ok v => simp [ih]
      | error e => simp [ih]

/-- Helper: every produced job result is keyed by some partition key. -/
theorem runAgentGroups_keys {ρ : Type} (exec : String → List CRow → Except String ρ)
    (G : List (String × List ORow)) :
    ∀ x ∈ runAgentGroups exec G, x.1 ∈ G.map Prod.fst := by
  induction G with
  | nil => intro x hx; simp only [runAgentGroups] at hx; exact absurd hx (List.not_mem_nil x)
  | cons a t ih =>
    obtain ⟨mt, g⟩ := a
    intro x hx
    simp only [List.map_cons]
    simp only [runAgentGroups] at hx
    split_ifs at hx
    · exact List.mem_cons_of_mem _ (ih x hx)
    · exact List.mem_cons_of_mem _ (ih x hx)
    · exact List.mem_cons_of_mem _ (ih x hx)
    · revert hx
      cases hr : exec mt (jobInput mt g) with
      | ok v =>
        intro hx
        rcases List.mem_cons.mp hx with he | hm
        · rw [he]
          exact List.mem_cons_self _ _
        · exact List.mem_cons_of_mem _ (ih x hm)
      | error e =>
        intro hx
        exact List.mem_cons_of_mem _ (ih x hx)

/-- C8: job failure isolation: if the scoring job of one partition raises,
the loop catches it and processes every remaining partition exactly as if
the failed one were absent, and the failed partition contributes nothing
to the aggregated output. -/
theorem job_failure_isolation {ρ : Type} (exec : String → List CRow → Except String ρ)
    (pre post : List (String × List ORow)) (mt : String) (g : List ORow) (e : String)
    (hfail : exec mt (jobInput mt g) = Except.error e) :
    runAgentGroups exec (pre ++ (mt, g) :: post)
      = runAgentGroups exec pre ++ runAgentGroups exec post
    ∧ (∀ x ∈ runAgentGroups exec (pre ++ (mt, g) :: post),
        x.1 ∈ pre.map Prod.fst ∨ x.1 ∈ post.map Prod.fst)
    ∧ (mt ∉ pre.map Prod.fst → mt ∉ post.map Prod.fst →
        ∀ x ∈ runAgentGroups exec (pre ++ (mt, g) :: post), x.1 ≠ mt) := by
  have hbase : runAgentGroups exec ((mt, g) :: post) = runAgentGroups exec post := by
    simp only [runAgentGroups]
    split_ifs
    · rfl
    · rfl
    · rfl
    · rw [hfail]
  have heq : runAgentGroups exec (pre ++ (mt, g) :: post)
      = runAgentGroups exec pre ++ runAgentGroups exec post := by
    rw [runAgentGroups_append, hbase]
  have hkeys : ∀ x ∈ runAgentGroups exec (pre ++ (mt, g) :: post),
      x.1 ∈ pre.map Prod.fst ∨ x.1 ∈ post.map Prod.fst := by
    intro x hx
    rw [heq] at hx
    rcases List.mem_append.mp hx with h | h
    · exact Or.inl (runAgentGroups_keys exec pre x h)
    · exact Or.inr (runAgentGroups_keys exec post x h)
  refine ⟨heq, hkeys, ?_⟩
  intro hpre hpost x hx hxeq
  rcases hkeys x hx with h | h
  · exact hpre (hxeq ▸ h)
  · exact hpost (hxeq ▸ h)

/-- C8 witness: with a concrete executor failing on the `"bad"` partition,
the pass still runs `"rouge"` and `"other"` and omits `"bad"`. -/
theorem job_failure_isolation_witness :
    runAgentGroups c8Exec ([("rouge", [c8Row])] ++ ("bad", [c8Row]) :: [("other", [c8Row])])
      = runAgentGroups c8Exec [("rouge", [c8Row])] ++ runAgentGroups c8Exec [("other", [c8Row])] :=
  (job_failure_isolation c8Exec [("rouge", [c8Row])] [("other", [c8Row])]
    "bad" [c8Row] "boom" rfl).1

/-- Helper: a failing ingestion collaborator aborts the pass unwritten. -/
theorem runPass_ingest_error {ρ : Type} (c : Collab ρ) (b : Bool) (e : String)
    (h : c.ingest = Except.error e) : runPass c b = (false, Except.error e) := by
  unfold runPass
  rw [h]

/-- Helper: the pass outcome once ingestion succeeded. -/
theorem runPass_ok {ρ : Type} (c : Collab ρ) (b : Bool) (rows : List ORow)
    (h : c.ingest = Except.ok rows) :
    runPass c b = match (if (passBody c rows).isEmpty then Except.ok () else c.upload) with
      | .error e => (false, .error e)
      | .ok _ => (!b, .ok (passBody c rows)) := by
  unfold runPass
  rw [h]

/-- C9: RunState write gating: the timestamp is written iff the pass ran
to completion (`ok` outcome) and was not an all-time pass; a collaborator
failure before the jobs (`ingest`) or at artifact upload propagates and
leaves the timestamp unwritten. -/
theorem runstate_write_gating {ρ : Type} (c : Collab ρ) (allTime : Bool) :
    ((runPass c allTime).1 = true ↔
      allTime = false ∧ ∃ out, (runPass c allTime).2 = Except.ok out)
    ∧ (∀ e, c.ingest = Except.error e → runPass c allTime = (false, Except.error e))
    ∧ (∀ e, (runPass c allTime).2 = Except.error e → (runPass c allTime).1 = false) := by
  refine ⟨?_, fun e he => runPass_ingest_error c allTime e he, ?_⟩
  · cases hI : c.ingest with
    | error e =>
      rw [runPass_ingest_error c allTime e hI]
      simp
    | ok rows =>
      rw [runPass_ok c allTime rows hI]
      split
      · simp
      · cases allTime <;> simp
  · cases hI : c.ingest with
    | error e =>
      rw [runPass_ingest_error c allTime e hI]
      simp
    | ok rows =>
      rw [runPass_ok c allTime rows hI]
      split
      · simp
      · simp

/-- C9 witness: a collaborator whose ingestion call raises leaves the
RunState unwritten. -/
theorem runstate_write_gating_witness :
    runPass c9Fail false = (false, Except.error "down") :=
  (runstate_write_gating c9Fail false).2.1 "down" rfl

/-- C1 witness: a concrete bucket of two full events and a concrete
response-only payload, instantiating `simple_pairing_lww`. -/
theorem simple_pairing_lww_witness :
    (c1wRow.metric_type = "simple"
      ∧ c1wRow.user_content = (scanSimple (sortedSimplePayloads "r" [c1e1, c1e3])).prompt
      ∧ c1wRow.agent_response = (scanSimple (sortedSimplePayloads "r" [c1e1, c1e3])).response
      ∧ c1wRow.reference = (scanSimple (sortedSimplePayloads "r" [c1e1, c1e3])).reference)
    ∧ isSimpleFor "r" c1e2.payload = false :=
  ⟨(simple_pairing_lww "r" [c1e1, c1e3]).2.2.1 c1wRow (by decide),
   (simple_pairing_lww "r" [c1e1, c1e3]).2.2.2 c1e2.payload (by decide)⟩

/-- C7 (amended): deserializing the file produced by serializing a
simple-exchange record reproduces the prompt, response and reference
exactly (and the derived ids become `case-{request_id}`). -/
theorem evalset_roundtrip_simple (r : SimpleRowS) :
    deserializeSet (serializeSimple r)
      = Except.ok [⟨"case-" ++ r.request_id, r.agent_response, r.user_content, r.reference,
          some r.reference, some r.metric_type⟩] := by
  by_cases h : r.reference = ""
  · simp [deserializeSet, deserializeCases, serializeSimple, deserializeCase, partText, h]
  · simp [deserializeSet, deserializeCases, serializeSimple, deserializeCase, partText, h]

/-- C7 counterexample: a file whose case holds a two-turn conversation
deserializes to a single record keeping only the first turn's user content
and the last turn's final response, so re-serializing produces a one-turn
case: `serialize(deserialize(x))` loses the inner-turn texts, which are
neither derived nor defaulted fields. -/
theorem evalset_roundtrip_collapse :
    deserializeSet c7TwoTurn = Except.ok [c7DRound]
    ∧ ((serializeSimple (rowOfD c7DRound)).eval_cases.map
        (fun c => c.conversation.length)) = [1]
    ∧ (c7TwoTurn.eval_cases.map (fun c => c.conversation.length)) = [2]
    ∧ serializeSimple (rowOfD c7DRound) ≠ c7TwoTurn := by
  decide

end EvalAgent
